import Mathlib

/-!
# Verification of `cleaned_inventory_system.py`

Shallow embedding of the inventory module. The global dictionary
`_stock_data : Dict[str, int]` is modelled as an association list with
Python-dict semantics (updating an existing key keeps its position, a new
key is appended at the end, deletion removes the entry). Python's dynamic
argument types are modelled by `PyVal`; a raised exception is modelled by
the `Except` component of each operation's result, and the first component
of the result is the state of the global dictionary when control leaves
the function (so that the effect of an operation that raises is visible).

JSON numbers are modelled as arbitrary-precision integers (non-integral
JSON numbers are outside the model); `int(v)` coercion is modelled by
`pyToInt`, including Python's treatment of `bool` as a subtype of `int`
and its parsing of decimal string literals with optional sign,
surrounding whitespace and digit-group underscores.
-/

/-- Python values that can flow through the module: strings, ints, bools,
`None`, lists and dicts (the shapes `json.load` can produce, minus
non-integral floats, plus whatever a caller may pass as an argument). -/
inductive PyVal where
  | str (s : String)
  | int (n : Int)
  | bool (b : Bool)
  | none
  | list (xs : List PyVal)
  | dict (entries : List (PyVal × PyVal))

/-- The exceptions the module raises: `ValueError` and `KeyError`. -/
inductive PyError where
  | valueError (msg : String)
  | keyError (msg : String)
deriving Repr, DecidableEq

/-- The type of `_stock_data`: a Python dict from item name to quantity,
as an insertion-ordered association list. -/
abbrev Inventory := List (String × Int)

/-- `d.get(key)`: first binding of `key`, if any. -/
def dictGet : Inventory → String → Option Int
  | [], _ => Option.none
  | (k, v) :: rest, key => if k = key then some v else dictGet rest key

/-- `d.get(key, default)`. -/
def dictGetD (inv : Inventory) (key : String) (d : Int) : Int :=
  (dictGet inv key).getD d

/-- `d[key] = val`: overwrite in place if present, else append. -/
def dictSet : Inventory → String → Int → Inventory
  | [], key, val => [(key, val)]
  | (k, v) :: rest, key, val =>
      if k = key then (k, val) :: rest else (k, v) :: dictSet rest key val

/-- `d.pop(key, None)`: drop the binding of `key` (keeps the rest). -/
def dictPop : Inventory → String → Inventory
  | [], _ => []
  | (k, v) :: rest, key => if k = key then rest else (k, v) :: dictPop rest key

/-- The keys of the dict, in order. -/
def dictKeys (inv : Inventory) : List String := inv.map Prod.fst

/-- Python whitespace accepted by `int(str)` (ASCII fragment of `str.strip`). -/
def isPySpace (c : Char) : Bool :=
  c == ' ' || c == '\t' || c == '\n' || c == '\r' || c.val == 11 || c.val == 12

/-- Digits of a Python integer literal after the first digit: digits with
optional single underscores between digit groups. Accumulates the value. -/
def digitsCore : List Char → Nat → Option Nat
  | [], acc => some acc
  | ['_'], _ => Option.none
  | '_' :: c :: rest, acc =>
      if c.isDigit then digitsCore rest (acc * 10 + (c.toNat - 48)) else Option.none
  | c :: rest, acc =>
      if c.isDigit then digitsCore rest (acc * 10 + (c.toNat - 48)) else Option.none

/-- A nonempty digit sequence (underscore grouping allowed, not leading). -/
def startDigits : List Char → Option Nat
  | [] => Option.none
  | c :: rest => if c.isDigit then digitsCore rest (c.toNat - 48) else Option.none

/-- Python's `int(s)` on a string: strip whitespace, optional sign, decimal
digits (with underscore grouping); `None` on anything else. -/
def pyIntOfString (s : String) : Option Int :=
  let cs := ((s.toList.dropWhile isPySpace).reverse.dropWhile isPySpace).reverse
  match cs with
  | '+' :: rest => (startDigits rest).map Int.ofNat
  | '-' :: rest => (startDigits rest).map (fun n => -(Int.ofNat n))
  | rest => (startDigits rest).map Int.ofNat

/-- Python's `int(v)` for the values in the model: ints unchanged, bools as
0/1, decimal strings parsed; `TypeError`/`ValueError` (here `None`) on the
rest. -/
def pyToInt : PyVal → Option Int
  | .int n => some n
  | .bool b => some (if b then 1 else 0)
  | .str s => pyIntOfString s
  | _ => Option.none

/-- `isinstance(v, int)` together with `v`'s integer value (Python bools
are ints: `True == 1`, `False == 0`). -/
def isinstance_int : PyVal → Option Int
  | .int n => some n
  | .bool b => some (if b then 1 else 0)
  | _ => Option.none

/-- The validation `isinstance(item, str) and item` shared by `add_item`,
`remove_item` and `get_qty`: a nonempty string, else `None`. -/
def validStr : PyVal → Option String
  | .str s => if s = "" then Option.none else some s
  | _ => Option.none

/-- `add_item(item, qty)`: validate, then set `current + qty`, removing
the item when the new total is `≤ 0`. (The timestamped append to the
caller's `logs` list and the log line are side effects outside the
store's state and are not modelled.) -/
def add_item (item qty : PyVal) (inv : Inventory) : Inventory × Except PyError Unit :=
  match item with
  | .str s =>
      if s = "" then (inv, .error (.valueError "item must be a non-empty string"))
      else
        match isinstance_int qty with
        | some q =>
            let current := dictGetD inv s 0
            let new_qty := current + q
            if new_qty ≤ 0 then (dictPop inv s, .ok ())
            else (dictSet inv s new_qty, .ok ())
        | Option.none => (inv, .error (.valueError "qty must be an integer"))
  | _ => (inv, .error (.valueError "item must be a non-empty string"))

/-- `remove_item(item, qty)`: validate item and qty, require presence,
then delete when the stored quantity is `≤ qty`, else decrement. (The
Python `KeyError` message quotes the item name; the quoting punctuation
is elided here.) -/
def remove_item (item qty : PyVal) (inv : Inventory) : Inventory × Except PyError Unit :=
  match item with
  | .str s =>
      if s = "" then (inv, .error (.valueError "item must be a non-empty string"))
      else
        match isinstance_int qty with
        | some q =>
            if q ≤ 0 then (inv, .error (.valueError "qty to remove must be a positive integer"))
            else
              match dictGet inv s with
              | Option.none => (inv, .error (.keyError ("Item " ++ s ++ " not found in inventory")))
              | some cur =>
                  if cur ≤ q then (dictPop inv s, .ok ())
                  else (dictSet inv s (cur - q), .ok ())
        | Option.none => (inv, .error (.valueError "qty to remove must be a positive integer"))
  | _ => (inv, .error (.valueError "item must be a non-empty string"))

/-- `get_qty(item)`: validate, then `_stock_data.get(item, 0)`. -/
def get_qty (item : PyVal) (inv : Inventory) : Inventory × Except PyError Int :=
  match item with
  | .str s =>
      if s = "" then (inv, .error (.valueError "item must be a non-empty string"))
      else (inv, .ok (dictGetD inv s 0))
  | _ => (inv, .error (.valueError "item must be a non-empty string"))

/-- The cleaning loop of `load_data`: skip non-string keys, skip values
`int` cannot coerce, keep coerced values only when strictly positive,
inserting into the fresh dict `cleaned`. -/
def cleanLoop : List (PyVal × PyVal) → Inventory → Inventory
  | [], cleaned => cleaned
  | (k, v) :: rest, cleaned =>
      match k with
      | .str s =>
          match pyToInt v with
          | some vi =>
              if 0 < vi then cleanLoop rest (dictSet cleaned s vi)
              else cleanLoop rest cleaned
          | Option.none => cleanLoop rest cleaned
      | _ => cleanLoop rest cleaned

/-- What `open(file)` followed by `json.load` produced: the file was
missing, the JSON failed to decode, some other I/O error occurred, or a
parsed value came back. -/
inductive LoadOutcome where
  | fileNotFound
  | jsonDecodeError
  | otherIOError
  | parsed (data : PyVal)

/-- `load_data(file)`: on a parsed JSON object, replace `_stock_data` with
the cleaned entries. A non-object parse raises `ValueError`, which the
final `except Exception` handler catches and logs; every handler
(`FileNotFoundError`, `JSONDecodeError`, generic) only logs, so on every
error path the previous `_stock_data` is left as it was. -/
def load_data (r : LoadOutcome) (inv : Inventory) : Inventory :=
  match r with
  | .parsed data =>
      match data with
      | .dict entries => cleanLoop entries []
      | _ => inv
  | _ => inv

/-- The parse of the file `save_data` writes on its success path:
`json.dump(_stock_data, ...)` serializes each binding as a string key and
an integer value, in dict order (`json.load` of that text gives it back
exactly, integers being arbitrary precision). -/
def save_json (inv : Inventory) : PyVal :=
  .dict (inv.map (fun p => (.str p.1, .int p.2)))

/-- The comprehension in `check_low_items`: names of entries with
`qty < threshold`, in dict order. -/
def lowLoop (t : Int) : Inventory → List String
  | [] => []
  | (name, qty) :: rest => if qty < t then name :: lowLoop t rest else lowLoop t rest

/-- `check_low_items(threshold)`: validate the threshold, then list the
items strictly below it. -/
def check_low_items (threshold : PyVal) (inv : Inventory) :
    Inventory × Except PyError (List String) :=
  match isinstance_int threshold with
  | some t =>
      if t < 0 then (inv, .error (.valueError "threshold must be a non-negative integer"))
      else (inv, .ok (lowLoop t inv))
  | Option.none => (inv, .error (.valueError "threshold must be a non-negative integer"))

/-- All stored quantities are strictly positive (the data-model invariant). -/
def allPos (inv : Inventory) : Prop := ∀ p ∈ inv, 0 < p.2

instance (inv : Inventory) : Decidable (allPos inv) :=
  inferInstanceAs (Decidable (∀ p ∈ inv, 0 < p.2))

/-- The string keys among a parsed object's entries, in order. -/
def strKeys : List (PyVal × PyVal) → List String
  | [] => []
  | (k, _) :: rest =>
      match k with
      | .str s => s :: strKeys rest
      | _ => strKeys rest

/-- The entries `load_data` keeps, stated from the spec's words: exactly
those whose key is text and whose value coerces to a strictly positive
integer, in file order. -/
def cleanSpec : List (PyVal × PyVal) → Inventory
  | [] => []
  | (k, v) :: rest =>
      match k with
      | .str s =>
          match pyToInt v with
          | some n => if 0 < n then (s, n) :: cleanSpec rest else cleanSpec rest
          | Option.none => cleanSpec rest
      | _ => cleanSpec rest

/-! ## Dictionary lemmas -/

theorem dictGet_mem (inv : Inventory) (k : String) :
    ∀ v, dictGet inv k = some v → (k, v) ∈ inv := by
  induction inv with
  | nil => intro v h; simp [dictGet] at h
  | cons p rest ih =>
      intro v h
      obtain ⟨k', v'⟩ := p
      simp only [dictGet] at h
      split at h
      · next heq =>
          injection h with h'
          subst heq h'
          exact List.mem_cons_self _ _
      · exact List.mem_cons_of_mem _ (ih v h)

theorem dictGet_eq_none (inv : Inventory) (k : String) :
    k ∉ dictKeys inv → dictGet inv k = Option.none := by
  induction inv with
  | nil => intro _; rfl
  | cons p rest ih =>
      intro h
      obtain ⟨k', v'⟩ := p
      simp only [dictKeys, List.map_cons, List.mem_cons, not_or] at h
      simp only [dictGet, if_neg (show ¬k' = k from fun heq => h.1 heq.symm)]
      exact ih (by simpa [dictKeys] using h.2)

theorem dictGet_dictSet_self (inv : Inventory) (k : String) (v : Int) :
    dictGet (dictSet inv k v) k = some v := by
  induction inv with
  | nil => simp [dictSet, dictGet]
  | cons p rest ih =>
      obtain ⟨k', v'⟩ := p
      by_cases h : k' = k
      · simp [dictSet, dictGet, h]
      · simp [dictSet, dictGet, h, ih]

theorem dictGet_dictPop_self (inv : Inventory) (k : String) :
    (dictKeys inv).Nodup → dictGet (dictPop inv k) k = Option.none := by
  induction inv with
  | nil => intro _; rfl
  | cons p rest ih =>
      intro hnd
      obtain ⟨k', v'⟩ := p
      simp only [dictKeys, List.map_cons, List.nodup_cons] at hnd
      by_cases h : k' = k
      · subst h
        simp only [dictPop, if_pos rfl]
        exact dictGet_eq_none rest k' (by simpa [dictKeys] using hnd.1)
      · simp only [dictPop, if_neg h, dictGet, if_neg h]
        exact ih (by simpa [dictKeys] using hnd.2)

theorem dictPop_subset (inv : Inventory) (k : String) :
    ∀ p ∈ dictPop inv k, p ∈ inv := by
  induction inv with
  | nil => intro p hp; simp [dictPop] at hp
  | cons q rest ih =>
      intro p hp
      obtain ⟨k', v'⟩ := q
      simp only [dictPop] at hp
      split at hp
      · exact List.mem_cons_of_mem _ hp
      · rcases List.mem_cons.mp hp with h1 | h1
        · subst h1; exact List.mem_cons_self _ _
        · exact List.mem_cons_of_mem _ (ih p h1)

theorem mem_dictSet (inv : Inventory) (k : String) (v : Int) :
    ∀ p ∈ dictSet inv k v, p = (k, v) ∨ p ∈ inv := by
  induction inv with
  | nil => intro p hp; simp [dictSet] at hp; left; exact hp
  | cons q rest ih =>
      intro p hp
      obtain ⟨k', v'⟩ := q
      simp only [dictSet] at hp
      split at hp
      · next heq =>
          rcases List.mem_cons.mp hp with h1 | h1
          · left; subst heq h1; rfl
          · right; exact List.mem_cons_of_mem _ h1
      · rcases List.mem_cons.mp hp with h1 | h1
        · right; subst h1; exact List.mem_cons_self _ _
        · rcases ih p h1 with h2 | h2
          · left; exact h2
          · right; exact List.mem_cons_of_mem _ h2

theorem dictSet_of_not_mem (inv : Inventory) (k : String) (v : Int) :
    k ∉ dictKeys inv → dictSet inv k v = inv ++ [(k, v)] := by
  induction inv with
  | nil => intro _; rfl
  | cons p rest ih =>
      intro h
      obtain ⟨k', v'⟩ := p
      simp only [dictKeys, List.map_cons, List.mem_cons, not_or] at h
      simp only [dictSet, if_neg (show ¬k' = k from fun heq => h.1 heq.symm), List.cons_append]
      rw [ih (by simpa [dictKeys] using h.2)]

/-! ## Positivity lemmas -/

theorem allPos_dictPop (inv : Inventory) (k : String) (h : allPos inv) :
    allPos (dictPop inv k) :=
  fun p hp => h p (dictPop_subset inv k p hp)

theorem allPos_dictSet (inv : Inventory) (k : String) (v : Int)
    (h : allPos inv) (hv : 0 < v) : allPos (dictSet inv k v) := by
  intro p hp
  rcases mem_dictSet inv k v p hp with h1 | h1
  · subst h1; exact hv
  · exact h p h1

theorem allPos_cleanLoop (es : List (PyVal × PyVal)) :
    ∀ acc, allPos acc → allPos (cleanLoop es acc) := by
  induction es with
  | nil => intro acc h; exact h
  | cons e rest ih =>
      intro acc h
      obtain ⟨k, v⟩ := e
      cases k with
      | str s =>
          simp only [cleanLoop]
          cases hv : pyToInt v with
          | none => exact ih _ h
          | some vi =>
              by_cases hvi : 0 < vi
              · simp only [if_pos hvi]
                exact ih _ (allPos_dictSet _ _ _ h hvi)
              · simp only [if_neg hvi]
                exact ih _ h
      | int n => exact ih _ h
      | bool b => exact ih _ h
      | none => exact ih _ h
      | list xs => exact ih _ h
      | dict ds => exact ih _ h

/-! ## Cleaning-loop lemmas -/

theorem cleanLoop_eq_append (es : List (PyVal × PyVal)) :
    ∀ acc : Inventory, (strKeys es).Nodup →
      (∀ t ∈ strKeys es, t ∉ dictKeys acc) →
      cleanLoop es acc = acc ++ cleanSpec es := by
  induction es with
  | nil => intro acc _ _; simp [cleanLoop, cleanSpec]
  | cons e rest ih =>
      intro acc hnd hdisj
      obtain ⟨k, v⟩ := e
      cases k with
      | str s =>
          have hs : strKeys ((PyVal.str s, v) :: rest) = s :: strKeys rest := rfl
          rw [hs] at hnd hdisj
          simp only [List.nodup_cons] at hnd
          simp only [cleanLoop, cleanSpec]
          cases hv : pyToInt v with
          | none => exact ih acc hnd.2 (fun t ht => hdisj t (List.mem_cons_of_mem _ ht))
          | some vi =>
              by_cases hvi : 0 < vi
              · simp only [if_pos hvi]
                have hsacc : s ∉ dictKeys acc := hdisj s (List.mem_cons_self _ _)
                rw [dictSet_of_not_mem acc s vi hsacc]
                rw [ih (acc ++ [(s, vi)]) hnd.2 ?_]
                · rw [List.append_assoc]; rfl
                · intro t ht hmem
                  simp only [dictKeys, List.map_append, List.mem_append] at hmem
                  rcases hmem with hmem | hmem
                  · exact hdisj t (List.mem_cons_of_mem _ ht) (by simpa [dictKeys] using hmem)
                  · simp only [List.map_cons, List.map_nil, List.mem_singleton] at hmem
                    exact hnd.1 (hmem ▸ ht)
              · simp only [if_neg hvi]
                exact ih acc hnd.2 (fun t ht => hdisj t (List.mem_cons_of_mem _ ht))
      | int n => exact ih acc hnd hdisj
      | bool b => exact ih acc hnd hdisj
      | none => exact ih acc hnd hdisj
      | list xs => exact ih acc hnd hdisj
      | dict ds => exact ih acc hnd hdisj

theorem strKeys_save (inv : Inventory) :
    strKeys (inv.map (fun p => (PyVal.str p.1, PyVal.int p.2))) = dictKeys inv := by
  induction inv with
  | nil => rfl
  | cons p rest ih =>
      obtain ⟨k, v⟩ := p
      show k :: strKeys _ = k :: dictKeys rest
      rw [ih]

theorem cleanSpec_save (inv : Inventory) :
    allPos inv → cleanSpec (inv.map (fun p => (PyVal.str p.1, PyVal.int p.2))) = inv := by
  induction inv with
  | nil => intro _; rfl
  | cons p rest ih =>
      intro h
      obtain ⟨k, v⟩ := p
      have hv : 0 < v := h (k, v) (List.mem_cons_self _ _)
      show (if 0 < v then (k, v) :: cleanSpec _ else cleanSpec _) = (k, v) :: rest
      rw [if_pos hv, ih (fun q hq => h q (List.mem_cons_of_mem _ hq))]

/-! ## Low-stock lemma -/

theorem mem_lowLoop (t : Int) (inv : Inventory) :
    ∀ name, name ∈ lowLoop t inv ↔ ∃ q, (name, q) ∈ inv ∧ q < t := by
  induction inv with
  | nil => intro name; simp [lowLoop]
  | cons p rest ih =>
      intro name
      obtain ⟨k, v⟩ := p
      by_cases hv : v < t
      · simp only [lowLoop, if_pos hv, List.mem_cons]
        constructor
        · rintro (rfl | h)
          · exact ⟨v, Or.inl rfl, hv⟩
          · obtain ⟨q, hq, hqt⟩ := (ih name).mp h
            exact ⟨q, Or.inr hq, hqt⟩
        · rintro ⟨q, heq | hmem, hqt⟩
          · exact Or.inl (congrArg Prod.fst heq)
          · right
            exact (ih name).mpr ⟨q, hmem, hqt⟩
      · simp only [lowLoop, if_neg hv]
        rw [ih name]
        constructor
        · rintro ⟨q, hq, hqt⟩
          exact ⟨q, List.mem_cons_of_mem _ hq, hqt⟩
        · rintro ⟨q, hq, hqt⟩
          rcases List.mem_cons.mp hq with heq | hmem
          · have h2 : q = v := congrArg Prod.snd heq
            subst h2
            exact absurd hqt hv
          · exact ⟨q, hmem, hqt⟩

/-! ## Operation characterizations -/

theorem validStr_some (item : PyVal) (s : String) (h : validStr item = some s) :
    item = .str s ∧ s ≠ "" := by
  cases item with
  | str t =>
      by_cases ht : t = ""
      · simp [validStr, ht] at h
      · simp only [validStr, if_neg ht, Option.some.injEq] at h
        subst h
        exact ⟨rfl, ht⟩
  | int n => simp [validStr] at h
  | bool b => simp [validStr] at h
  | none => simp [validStr] at h
  | list xs => simp [validStr] at h
  | dict ds => simp [validStr] at h

theorem add_item_invalid_item (inv : Inventory) (item qty : PyVal)
    (h : validStr item = Option.none) :
    add_item item qty inv = (inv, .error (.valueError "item must be a non-empty string")) := by
  cases item with
  | str s =>
      by_cases hs : s = ""
      · simp [add_item, hs]
      · simp [validStr, hs] at h
  | int n => rfl
  | bool b => rfl
  | none => rfl
  | list xs => rfl
  | dict ds => rfl

theorem add_item_invalid_qty (inv : Inventory) (s : String) (qty : PyVal)
    (hs : s ≠ "") (hq : isinstance_int qty = Option.none) :
    add_item (.str s) qty inv = (inv, .error (.valueError "qty must be an integer")) := by
  simp [add_item, hs, hq]

theorem add_item_ok_eq (inv : Inventory) (s : String) (hs : s ≠ "") (qty : PyVal) (q : Int)
    (hq : isinstance_int qty = some q) :
    add_item (.str s) qty inv =
      if dictGetD inv s 0 + q ≤ 0 then (dictPop inv s, Except.ok ())
      else (dictSet inv s (dictGetD inv s 0 + q), Except.ok ()) := by
  by_cases hc : dictGetD inv s 0 + q ≤ 0 <;> simp [add_item, hs, hq, hc]

theorem remove_item_invalid_item (inv : Inventory) (item qty : PyVal)
    (h : validStr item = Option.none) :
    remove_item item qty inv = (inv, .error (.valueError "item must be a non-empty string")) := by
  cases item with
  | str s =>
      by_cases hs : s = ""
      · simp [remove_item, hs]
      · simp [validStr, hs] at h
  | int n => rfl
  | bool b => rfl
  | none => rfl
  | list xs => rfl
  | dict ds => rfl

theorem remove_item_qty_not_int (inv : Inventory) (s : String) (qty : PyVal)
    (hs : s ≠ "") (hq : isinstance_int qty = Option.none) :
    remove_item (.str s) qty inv =
      (inv, .error (.valueError "qty to remove must be a positive integer")) := by
  simp [remove_item, hs, hq]

theorem remove_item_qty_nonpos (inv : Inventory) (s : String) (qty : PyVal) (q : Int)
    (hs : s ≠ "") (hq : isinstance_int qty = some q) (hle : q ≤ 0) :
    remove_item (.str s) qty inv =
      (inv, .error (.valueError "qty to remove must be a positive integer")) := by
  simp [remove_item, hs, hq, hle]

theorem remove_item_absent (inv : Inventory) (s : String) (qty : PyVal) (q : Int)
    (hs : s ≠ "") (hq : isinstance_int qty = some q) (hpos : 0 < q)
    (habs : dictGet inv s = Option.none) :
    remove_item (.str s) qty inv =
      (inv, .error (.keyError ("Item " ++ s ++ " not found in inventory"))) := by
  simp [remove_item, hs, hq, not_le.mpr hpos, habs]

theorem remove_item_present_eq (inv : Inventory) (s : String) (qty : PyVal) (q cur : Int)
    (hs : s ≠ "") (hq : isinstance_int qty = some q) (hpos : 0 < q)
    (hcur : dictGet inv s = some cur) :
    remove_item (.str s) qty inv =
      if cur ≤ q then (dictPop inv s, Except.ok ())
      else (dictSet inv s (cur - q), Except.ok ()) := by
  by_cases hc : cur ≤ q <;> simp [remove_item, hs, hq, not_le.mpr hpos, hcur, hc]

theorem get_qty_valid_eq (inv : Inventory) (s : String) (hs : s ≠ "") :
    get_qty (.str s) inv = (inv, .ok (dictGetD inv s 0)) := by
  simp [get_qty, hs]

theorem get_qty_invalid (inv : Inventory) (item : PyVal)
    (h : validStr item = Option.none) :
    get_qty item inv = (inv, .error (.valueError "item must be a non-empty string")) := by
  cases item with
  | str s =>
      by_cases hs : s = ""
      · simp [get_qty, hs]
      · simp [validStr, hs] at h
  | int n => rfl
  | bool b => rfl
  | none => rfl
  | list xs => rfl
  | dict ds => rfl

theorem check_low_items_valid_eq (inv : Inventory) (th : PyVal) (t : Int)
    (hq : isinstance_int th = some t) (ht : ¬ t < 0) :
    check_low_items th inv = (inv, .ok (lowLoop t inv)) := by
  simp [check_low_items, hq, ht]

theorem check_low_items_not_int (inv : Inventory) (th : PyVal)
    (hq : isinstance_int th = Option.none) :
    check_low_items th inv =
      (inv, .error (.valueError "threshold must be a non-negative integer")) := by
  simp [check_low_items, hq]

theorem check_low_items_neg (inv : Inventory) (th : PyVal) (t : Int)
    (hq : isinstance_int th = some t) (ht : t < 0) :
    check_low_items th inv =
      (inv, .error (.valueError "threshold must be a non-negative integer")) := by
  simp [check_low_items, hq, ht]

/-! ## Claims -/

/-- Claim C1: the spec says a failed `load` (missing file, malformed JSON,
or any other load error) leaves the inventory EMPTY for every prior
state. On the code this is false: every `except` handler of `load_data`
only logs and never reassigns `_stock_data`, so a prior non-empty
inventory survives the failed load unchanged — contradicting the claim
and the handlers' own log text ("starting with empty inventory").
Evaluated at the failing input: prior inventory holds apple with
quantity 5 and the file is missing (likewise malformed / other error). -/
theorem c1_load_error_keeps_prior_inventory :
    load_data .fileNotFound [("apple", 5)] = [("apple", 5)] ∧
    load_data .jsonDecodeError [("apple", 5)] = [("apple", 5)] ∧
    load_data .otherIOError [("apple", 5)] = [("apple", 5)] ∧
    load_data .fileNotFound [("apple", 5)] ≠ ([] : Inventory) := by
  refine ⟨rfl, rfl, rfl, ?_⟩
  decide

/-- Claim C2: strict positivity of all stored quantities is an invariant:
it holds of the initial empty inventory and is preserved by `add_item`,
`remove_item` and `load_data` (on every branch, error or success), values
`≤ 0` being removed rather than stored. -/
theorem c2_positivity_invariant :
    allPos ([] : Inventory) ∧
    (∀ (inv : Inventory) (item qty : PyVal),
      allPos inv → allPos (add_item item qty inv).1) ∧
    (∀ (inv : Inventory) (item qty : PyVal),
      allPos inv → allPos (remove_item item qty inv).1) ∧
    (∀ (inv : Inventory) (r : LoadOutcome),
      allPos inv → allPos (load_data r inv)) := by
  refine ⟨?_, ?_, ?_, ?_⟩
  · intro p hp
    exact absurd hp (List.not_mem_nil p)
  · intro inv item qty h
    cases hitem : validStr item with
    | none => rw [add_item_invalid_item inv item qty hitem]; exact h
    | some s =>
        rcases validStr_some item s hitem with ⟨rfl, hs⟩
        cases hq : isinstance_int qty with
        | none => rw [add_item_invalid_qty inv s qty hs hq]; exact h
        | some q =>
            rw [add_item_ok_eq inv s hs qty q hq]
            by_cases hc : dictGetD inv s 0 + q ≤ 0
            · rw [if_pos hc]
              exact allPos_dictPop inv s h
            · rw [if_neg hc]
              exact allPos_dictSet inv s _ h (by omega)
  · intro inv item qty h
    cases hitem : validStr item with
    | none => rw [remove_item_invalid_item inv item qty hitem]; exact h
    | some s =>
        rcases validStr_some item s hitem with ⟨rfl, hs⟩
        cases hq : isinstance_int qty with
        | none => rw [remove_item_qty_not_int inv s qty hs hq]; exact h
        | some q =>
            by_cases hqle : q ≤ 0
            · rw [remove_item_qty_nonpos inv s qty q hs hq hqle]; exact h
            · have hpos : 0 < q := by omega
              cases hcur : dictGet inv s with
              | none => rw [remove_item_absent inv s qty q hs hq hpos hcur]; exact h
              | some cur =>
                  rw [remove_item_present_eq inv s qty q cur hs hq hpos hcur]
                  by_cases hc : cur ≤ q
                  · rw [if_pos hc]
                    exact allPos_dictPop inv s h
                  · rw [if_neg hc]
                    exact allPos_dictSet inv s _ h (by omega)
  · intro inv r h
    cases r with
    | parsed data =>
        cases data with
        | dict entries =>
            exact allPos_cleanLoop entries []
              (fun p hp => absurd hp (List.not_mem_nil p))
        | str s => exact h
        | int n => exact h
        | bool b => exact h
        | none => exact h
        | list xs => exact h
    | fileNotFound => exact h
    | jsonDecodeError => exact h
    | otherIOError => exact h

theorem c2_witness :
    allPos (add_item (.str "apple") (.int 3) [("pear", 2)]).1 ∧
    allPos (remove_item (.str "pear") (.int 1) [("pear", 2)]).1 ∧
    allPos (load_data (.parsed (.dict [(.str "a", .int 1), (.str "b", .int 0)])) []) :=
  ⟨c2_positivity_invariant.2.1 [("pear", 2)] (.str "apple") (.int 3) (by decide),
   c2_positivity_invariant.2.2.1 [("pear", 2)] (.str "pear") (.int 1) (by decide),
   c2_positivity_invariant.2.2.2 [] (.parsed (.dict [(.str "a", .int 1), (.str "b", .int 0)]))
     (by decide)⟩

/-- Claim C3: for every inventory (a dict, so keys are distinct), every
non-empty string item and every integer qty, `add_item` succeeds and
computes the new total current + qty; when the total is ≤ 0 the item is
removed and a subsequent `get_qty` returns 0, otherwise the item's
quantity becomes exactly the new total. -/
theorem c3_add_item_semantics (inv : Inventory) (s : String) (hs : s ≠ "")
    (q : Int) (hnd : (dictKeys inv).Nodup) :
    (add_item (.str s) (.int q) inv).2 = .ok () ∧
    (dictGetD inv s 0 + q ≤ 0 →
      (add_item (.str s) (.int q) inv).1 = dictPop inv s ∧
      (get_qty (.str s) (add_item (.str s) (.int q) inv).1).2 = .ok 0) ∧
    (0 < dictGetD inv s 0 + q →
      (add_item (.str s) (.int q) inv).1 = dictSet inv s (dictGetD inv s 0 + q) ∧
      dictGet (add_item (.str s) (.int q) inv).1 s = some (dictGetD inv s 0 + q)) := by
  have hadd := add_item_ok_eq inv s hs (.int q) q rfl
  refine ⟨?_, ?_, ?_⟩
  · rw [hadd]
    split <;> rfl
  · intro hc
    rw [hadd, if_pos hc]
    refine ⟨rfl, ?_⟩
    rw [get_qty_valid_eq _ s hs]
    simp only [dictGetD, dictGet_dictPop_self inv s hnd, Option.getD_none]
  · intro hc
    rw [hadd, if_neg (not_le.mpr hc)]
    exact ⟨rfl, dictGet_dictSet_self inv s _⟩

theorem c3_witness :
    (get_qty (.str "apple") (add_item (.str "apple") (.int (-1)) [("apple", 1)]).1).2 =
      .ok 0 :=
  ((c3_add_item_semantics [("apple", 1)] "apple" (by decide) (-1) (by decide)).2.1
    (by decide)).2

/-- Claim C4: for every inventory containing `item` and every positive
integer qty, `remove_item` succeeds, deletes the item entirely when the
current quantity is ≤ qty, and otherwise decrements the stored quantity
by qty; and concretely add("apple",10); remove("apple",3); get("apple")
returns 7. -/
theorem c4_remove_item_semantics :
    (∀ (inv : Inventory) (s : String) (q cur : Int), s ≠ "" → 0 < q →
      dictGet inv s = some cur →
      (remove_item (.str s) (.int q) inv).2 = .ok () ∧
      (cur ≤ q → (remove_item (.str s) (.int q) inv).1 = dictPop inv s) ∧
      (q < cur →
        (remove_item (.str s) (.int q) inv).1 = dictSet inv s (cur - q) ∧
        dictGet (remove_item (.str s) (.int q) inv).1 s = some (cur - q))) ∧
    (get_qty (.str "apple")
      (remove_item (.str "apple") (.int 3)
        (add_item (.str "apple") (.int 10) []).1).1).2 = .ok 7 := by
  constructor
  · intro inv s q cur hs hq hcur
    have hrm := remove_item_present_eq inv s (.int q) q cur hs rfl hq hcur
    refine ⟨?_, ?_, ?_⟩
    · rw [hrm]
      split <;> rfl
    · intro hc
      rw [hrm, if_pos hc]
    · intro hc
      rw [hrm, if_neg (not_le.mpr hc)]
      exact ⟨rfl, dictGet_dictSet_self inv s _⟩
  · rfl

theorem c4_witness :
    (remove_item (.str "apple") (.int 10) [("apple", 4)]).1 = [] :=
  ((c4_remove_item_semantics.1 [("apple", 4)] "apple" 10 4 (by decide) (by decide)
    (by decide)).2.1 (by decide))

/-- Claim C5: on a file parsing to a JSON object (whose string keys are
distinct, as `json.load` guarantees), `load_data` replaces the entire
in-memory mapping — whatever it was — with exactly the entries whose key
is text and whose value coerces to a strictly positive integer
(`cleanSpec`, phrased from the spec's words), non-text keys and
non-coercible values being skipped and non-positive values dropped. -/
theorem c5_load_replaces_with_cleaned (inv : Inventory) (es : List (PyVal × PyVal))
    (hnd : (strKeys es).Nodup) :
    load_data (.parsed (.dict es)) inv = cleanSpec es := by
  show cleanLoop es [] = cleanSpec es
  rw [cleanLoop_eq_append es [] hnd (fun t _ h => by simp [dictKeys] at h)]
  rfl

theorem c5_witness :
    load_data (.parsed (.dict [(.str "a", .int 3), (.int 1, .int 2),
      (.str "b", .str "4"), (.str "c", .int 0), (.str "d", .none)])) [("old", 9)] =
      [("a", 3), ("b", 4)] :=
  c5_load_replaces_with_cleaned [("old", 9)]
    [(.str "a", .int 3), (.int 1, .int 2), (.str "b", .str "4"),
     (.str "c", .int 0), (.str "d", .none)] (by decide)

/-- Claim C6: round-trip. For every inventory (distinct keys) whose
values are all positive integers, saving and then loading the same path
reproduces exactly the same mapping, independently of the in-memory
state at load time. -/
theorem c6_save_load_roundtrip (inv inv0 : Inventory)
    (hnd : (dictKeys inv).Nodup) (hpos : allPos inv) :
    load_data (.parsed (save_json inv)) inv0 = inv := by
  show cleanLoop (inv.map (fun p => (PyVal.str p.1, PyVal.int p.2))) [] = inv
  rw [cleanLoop_eq_append _ [] (by rw [strKeys_save]; exact hnd)
      (fun t _ h => by simp [dictKeys] at h)]
  rw [List.nil_append, cleanSpec_save inv hpos]

theorem c6_witness :
    load_data (.parsed (save_json [("apple", 10), ("banana", 2)])) [("stale", 1)] =
      [("apple", 10), ("banana", 2)] :=
  c6_save_load_roundtrip [("apple", 10), ("banana", 2)] [("stale", 1)]
    (by decide) (by decide)

/-- Claim C7: bad arguments fail with `ValueError` and are returned to
the caller (in this embedding every error of `add_item` / `remove_item`
is in the returned `Except`, never swallowed): `add_item` on a non-text
or empty item, or a non-integer qty; `remove_item` on a non-text or
empty item, a non-integer or non-positive qty, and `KeyError` when the
item is absent. -/
theorem c7_errors_surfaced :
    (∀ (inv : Inventory) (item qty : PyVal), validStr item = Option.none →
      (add_item item qty inv).2 =
        .error (.valueError "item must be a non-empty string")) ∧
    (∀ (inv : Inventory) (s : String) (qty : PyVal), s ≠ "" →
      isinstance_int qty = Option.none →
      (add_item (.str s) qty inv).2 = .error (.valueError "qty must be an integer")) ∧
    (∀ (inv : Inventory) (item qty : PyVal), validStr item = Option.none →
      (remove_item item qty inv).2 =
        .error (.valueError "item must be a non-empty string")) ∧
    (∀ (inv : Inventory) (s : String) (qty : PyVal), s ≠ "" →
      isinstance_int qty = Option.none →
      (remove_item (.str s) qty inv).2 =
        .error (.valueError "qty to remove must be a positive integer")) ∧
    (∀ (inv : Inventory) (s : String) (qty : PyVal) (q : Int), s ≠ "" →
      isinstance_int qty = some q → q ≤ 0 →
      (remove_item (.str s) qty inv).2 =
        .error (.valueError "qty to remove must be a positive integer")) ∧
    (∀ (inv : Inventory) (s : String) (q : Int), s ≠ "" → 0 < q →
      dictGet inv s = Option.none →
      (remove_item (.str s) (.int q) inv).2 =
        .error (.keyError ("Item " ++ s ++ " not found in inventory"))) := by
  refine ⟨?_, ?_, ?_, ?_, ?_, ?_⟩
  · intro inv item qty h
    rw [add_item_invalid_item inv item qty h]
  · intro inv s qty hs hq
    rw [add_item_invalid_qty inv s qty hs hq]
  · intro inv item qty h
    rw [remove_item_invalid_item inv item qty h]
  · intro inv s qty hs hq
    rw [remove_item_qty_not_int inv s qty hs hq]
  · intro inv s qty q hs hq hle
    rw [remove_item_qty_nonpos inv s qty q hs hq hle]
  · intro inv s q hs hpos habs
    rw [remove_item_absent inv s (.int q) q hs rfl hpos habs]

theorem c7_witness :
    (add_item (.int 3) (.int 1) []).2 =
      .error (.valueError "item must be a non-empty string") ∧
    (add_item (.str "a") (.str "x") []).2 =
      .error (.valueError "qty must be an integer") ∧
    (remove_item (.str "a") (.int 0) [("a", 2)]).2 =
      .error (.valueError "qty to remove must be a positive integer") ∧
    (remove_item (.str "ghost") (.int 1) []).2 =
      .error (.keyError "Item ghost not found in inventory") :=
  ⟨c7_errors_surfaced.1 [] (.int 3) (.int 1) rfl,
   c7_errors_surfaced.2.1 [] "a" (.str "x") (by decide) rfl,
   c7_errors_surfaced.2.2.2.2.1 [("a", 2)] "a" (.int 0) 0 (by decide) rfl (by decide),
   c7_errors_surfaced.2.2.2.2.2 [] "ghost" 1 (by decide) (by decide) rfl⟩

/-- Claim C8: `get_qty` returns the stored quantity of a present item,
0 for an absent one, and fails with `ValueError` on an invalid (empty or
non-text) item name. -/
theorem c8_get_qty_semantics :
    (∀ (inv : Inventory) (s : String) (q : Int), s ≠ "" →
      dictGet inv s = some q → (get_qty (.str s) inv).2 = .ok q) ∧
    (∀ (inv : Inventory) (s : String), s ≠ "" →
      dictGet inv s = Option.none → (get_qty (.str s) inv).2 = .ok 0) ∧
    (∀ (inv : Inventory) (item : PyVal), validStr item = Option.none →
      (get_qty item inv).2 =
        .error (.valueError "item must be a non-empty string")) := by
  refine ⟨?_, ?_, ?_⟩
  · intro inv s q hs hq
    rw [get_qty_valid_eq inv s hs]
    simp [dictGetD, hq]
  · intro inv s hs hq
    rw [get_qty_valid_eq inv s hs]
    simp [dictGetD, hq]
  · intro inv item h
    rw [get_qty_invalid inv item h]

theorem c8_witness :
    (get_qty (.str "apple") [("apple", 7)]).2 = .ok 7 ∧
    (get_qty (.str "pear") [("apple", 7)]).2 = .ok 0 ∧
    (get_qty (.str "") []).2 = .error (.valueError "item must be a non-empty string") :=
  ⟨c8_get_qty_semantics.1 [("apple", 7)] "apple" 7 (by decide) (by decide),
   c8_get_qty_semantics.2.1 [("apple", 7)] "pear" (by decide) (by decide),
   c8_get_qty_semantics.2.2 [] (.str "") (by decide)⟩

/-- Claim C9: for a non-negative integer threshold, `check_low_items`
returns exactly the items whose stored quantity is strictly below the
threshold (in dict order); it fails with `ValueError` when the threshold
is not an integer or is negative; and on {apple: 10, banana: 2} with
threshold 5 it returns exactly ["banana"]. -/
theorem c9_low_stock :
    (∀ (inv : Inventory) (t : Int), 0 ≤ t →
      ∃ l, (check_low_items (.int t) inv).2 = .ok l ∧
        ∀ name, name ∈ l ↔ ∃ q, (name, q) ∈ inv ∧ q < t) ∧
    (∀ (inv : Inventory) (th : PyVal), isinstance_int th = Option.none →
      (check_low_items th inv).2 =
        .error (.valueError "threshold must be a non-negative integer")) ∧
    (∀ (inv : Inventory) (th : PyVal) (t : Int), isinstance_int th = some t → t < 0 →
      (check_low_items th inv).2 =
        .error (.valueError "threshold must be a non-negative integer")) ∧
    (check_low_items (.int 5) [("apple", 10), ("banana", 2)]).2 = .ok ["banana"] := by
  refine ⟨?_, ?_, ?_, rfl⟩
  · intro inv t ht
    refine ⟨lowLoop t inv, ?_, mem_lowLoop t inv⟩
    rw [check_low_items_valid_eq inv (.int t) t rfl (not_lt.mpr ht)]
  · intro inv th h
    rw [check_low_items_not_int inv th h]
  · intro inv th t hq ht
    rw [check_low_items_neg inv th t hq ht]

theorem c9_witness :
    ∃ l, (check_low_items (.int 5) [("apple", 10), ("banana", 2)]).2 = .ok l ∧
      ∀ name, name ∈ l ↔
        ∃ q, (name, q) ∈ ([("apple", 10), ("banana", 2)] : Inventory) ∧ q < 5 :=
  c9_low_stock.1 [("apple", 10), ("banana", 2)] 5 (by decide)

/-- Claim C10: atomicity on error: whenever `add_item`, `remove_item`,
`get_qty` or `check_low_items` raises, the inventory is unchanged — all
validation and presence checks happen before any mutation. -/
theorem c10_atomic_on_error :
    (∀ (inv : Inventory) (item qty : PyVal) (e : PyError),
      (add_item item qty inv).2 = .error e → (add_item item qty inv).1 = inv) ∧
    (∀ (inv : Inventory) (item qty : PyVal) (e : PyError),
      (remove_item item qty inv).2 = .error e → (remove_item item qty inv).1 = inv) ∧
    (∀ (inv : Inventory) (item : PyVal) (e : PyError),
      (get_qty item inv).2 = .error e → (get_qty item inv).1 = inv) ∧
    (∀ (inv : Inventory) (th : PyVal) (e : PyError),
      (check_low_items th inv).2 = .error e → (check_low_items th inv).1 = inv) := by
  refine ⟨?_, ?_, ?_, ?_⟩
  · intro inv item qty e h
    cases hitem : validStr item with
    | none => rw [add_item_invalid_item inv item qty hitem]
    | some s =>
        rcases validStr_some item s hitem with ⟨rfl, hs⟩
        cases hq : isinstance_int qty with
        | none => rw [add_item_invalid_qty inv s qty hs hq]
        | some q =>
            rw [add_item_ok_eq inv s hs qty q hq] at h
            by_cases hc : dictGetD inv s 0 + q ≤ 0
            · rw [if_pos hc] at h
              simp at h
            · rw [if_neg hc] at h
              simp at h
  · intro inv item qty e h
    cases hitem : validStr item with
    | none => rw [remove_item_invalid_item inv item qty hitem]
    | some s =>
        rcases validStr_some item s hitem with ⟨rfl, hs⟩
        cases hq : isinstance_int qty with
        | none => rw [remove_item_qty_not_int inv s qty hs hq]
        | some q =>
            by_cases hqle : q ≤ 0
            · rw [remove_item_qty_nonpos inv s qty q hs hq hqle]
            · have hpos : 0 < q := by omega
              cases hcur : dictGet inv s with
              | none => rw [remove_item_absent inv s qty q hs hq hpos hcur]
              | some cur =>
                  rw [remove_item_present_eq inv s qty q cur hs hq hpos hcur] at h
                  by_cases hc : cur ≤ q
                  · rw [if_pos hc] at h
                    simp at h
                  · rw [if_neg hc] at h
                    simp at h
  · intro inv item e h
    cases hitem : validStr item with
    | none => rw [get_qty_invalid inv item hitem]
    | some s =>
        rcases validStr_some item s hitem with ⟨rfl, hs⟩
        rw [get_qty_valid_eq inv s hs] at h
        simp at h
  · intro inv th e h
    cases hq : isinstance_int th with
    | none => rw [check_low_items_not_int inv th hq]
    | some t =>
        by_cases ht : t < 0
        · rw [check_low_items_neg inv th t hq ht]
        · rw [check_low_items_valid_eq inv th t hq ht] at h
          simp at h

theorem c10_witness :
    (add_item (.int 1) (.int 1) [("apple", 3)]).1 = [("apple", 3)] ∧
    (remove_item (.str "pear") (.int 1) [("apple", 3)]).1 = [("apple", 3)] ∧
    (get_qty (.str "") [("apple", 3)]).1 = [("apple", 3)] ∧
    (check_low_items (.int (-1)) [("apple", 3)]).1 = [("apple", 3)] :=
  ⟨c10_atomic_on_error.1 [("apple", 3)] (.int 1) (.int 1)
     (.valueError "item must be a non-empty string") rfl,
   c10_atomic_on_error.2.1 [("apple", 3)] (.str "pear") (.int 1)
     (.keyError "Item pear not found in inventory") rfl,
   c10_atomic_on_error.2.2.1 [("apple", 3)] (.str "")
     (.valueError "item must be a non-empty string") rfl,
   c10_atomic_on_error.2.2.2 [("apple", 3)] (.int (-1))
     (.valueError "threshold must be a non-negative integer") rfl⟩
